import Mathlib

/-!
Verification development for the `sar-bot` repository (Cloudflare agents
chat starter): tool registry with human-in-the-loop confirmation, a
deferred-task scheduler tool surface, a durable three-step RAG ingestion
workflow, and a knowledge-base retrieval tool.

Source files embedded:
* `src/tools.ts` — tool definitions, `executions` table, `scheduleTask`,
  `getScheduledTasks`, `cancelScheduledTask`, `getRAGTool`.
* `src/server.ts` — `Chat.executeTask`, `RAGWorkflow.run`, the `/text`
  ingestion endpoint.
* `src/utils.ts` (`processToolCalls`) is imported by `server.ts` but its
  source is not in the tree; it is modelled from the specification §4.2.

External collaborators (the `agents` scheduler, the D1 database, the
Vectorize index, the OpenAI client, the Workflows step engine) are
modelled as explicit oracles/state per their interface in the spec.
-/

/-! ## Tool registry (src/tools.ts) -/

/-- Serialized tool-call arguments (the single relevant field of the zod
object: `city` for the weather tool, `location` for the time tool, …). -/
abbrev Args := String

/-- A tool definition as consumed by the registry: name, description, and
an optional execution function.  Per the source comments, omitting the
execute function makes the tool require human confirmation.  A raised
exception is modelled as `Except.error`. -/
structure ToolDefinition where
  name : String
  description : String
  execute : Option (Args → Except String String)

/-- Classification of a tool: auto-executing or confirmation-required. -/
inductive ToolClass where
  | Auto
  | RequiresConfirmation
deriving DecidableEq, Repr

/-- A tool requires confirmation iff no execute function is attached
(source comment: "Omitting execute function makes this tool require
human confirmation"). -/
def classify (t : ToolDefinition) : ToolClass :=
  if t.execute.isNone then ToolClass.RequiresConfirmation else ToolClass.Auto

/-- `getWeatherInformation` tool: no execute function; its implementation
lives in the `executions` table. -/
def getWeatherInformation : ToolDefinition :=
  { name := "getWeatherInformation"
    description := "show the weather in a given city to the user"
    execute := none }

/-- `getLocalTime` tool: executes automatically, returning `"10am"`. -/
def getLocalTime : ToolDefinition :=
  { name := "getLocalTime"
    description := "get the local time for a specified location"
    execute := some (fun _ => .ok "10am") }

/-- `getRAGTool` registry entry.  Its effectful body (embedding query,
vector search, document lookup, model call) is embedded faithfully below
as `getRAGToolRun`; the registry-level entry only records that an execute
function is attached. -/
def getRAGToolDef : ToolDefinition :=
  { name := "getRAGTool"
    description := "get additional context from knowledge base"
    execute := some (fun _ => .ok "") }

/-- `scheduleTask` registry entry.  Its effectful body is embedded
faithfully below as `scheduleTaskRun`; the registry-level entry only
records that an execute function is attached. -/
def scheduleTaskDef : ToolDefinition :=
  { name := "scheduleTask"
    description := "A tool to schedule a task to be executed at a later time"
    execute := some (fun _ => .ok "") }

/-- `getScheduledTasks` registry entry (auto-executing). -/
def getScheduledTasksDef : ToolDefinition :=
  { name := "getScheduledTasks"
    description := "List all tasks that have been scheduled"
    execute := some (fun _ => .ok "No scheduled tasks found.") }

/-- `cancelScheduledTask` registry entry.  Its effectful body is embedded
faithfully below as `cancelScheduledTaskRun`. -/
def cancelScheduledTaskDef : ToolDefinition :=
  { name := "cancelScheduledTask"
    description := "Cancel a scheduled task using its ID"
    execute := some (fun _ => .ok "") }

/-- The exported `tools` registry, in source order. -/
def tools : List ToolDefinition :=
  [getWeatherInformation, getLocalTime, scheduleTaskDef,
   getScheduledTasksDef, cancelScheduledTaskDef, getRAGToolDef]

/-- The exported `executions` table: implementations of
confirmation-required tools, keyed by tool name.  Contains exactly
`getWeatherInformation`. -/
def executions : List (String × (Args → Except String String)) :=
  [("getWeatherInformation", fun city => .ok ("The weather in " ++ city ++ " is sunny"))]

/-- Look up a tool by name in the registry. -/
def findTool (reg : List ToolDefinition) (name : String) : Option ToolDefinition :=
  reg.find? (fun t => t.name = name)

/-- Look up a confirmation-required tool's implementation in the
executions table. -/
def findExecution (execs : List (String × (Args → Except String String)))
    (name : String) : Option (Args → Except String String) :=
  (execs.find? (fun p => p.1 = name)).map (·.2)

/-- C2: for every tool in the registry, it is confirmation-required iff
its execute function is absent, and iff its implementation lives in the
separate executions table. -/
theorem classification_iff_no_execute :
    ∀ t ∈ tools,
      (classify t = ToolClass.RequiresConfirmation ↔ t.execute.isNone = true) ∧
      (classify t = ToolClass.RequiresConfirmation ↔
        (findExecution executions t.name).isSome = true) := by
  intro t ht
  fin_cases ht <;>
    simp [classify, getWeatherInformation, getLocalTime, scheduleTaskDef,
      getScheduledTasksDef, cancelScheduledTaskDef, getRAGToolDef,
      findExecution, executions, List.find?]

/-- Witness for C2 at the two extreme registry entries:
`getWeatherInformation` (no execute function, implementation in the
executions table) and `getLocalTime` (execute function attached, no
executions entry). -/
theorem classification_iff_no_execute_witness :
    (classify getWeatherInformation = ToolClass.RequiresConfirmation ↔
      getWeatherInformation.execute.isNone = true) ∧
    (classify getWeatherInformation = ToolClass.RequiresConfirmation ↔
      (findExecution executions getWeatherInformation.name).isSome = true) ∧
    ((classify getLocalTime = ToolClass.RequiresConfirmation ↔
      getLocalTime.execute.isNone = true) ∧
    (classify getLocalTime = ToolClass.RequiresConfirmation ↔
      (findExecution executions getLocalTime.name).isSome = true)) := by
  have h₁ := classification_iff_no_execute getWeatherInformation
    (by simp [tools])
  have h₂ := classification_iff_no_execute getLocalTime
    (by simp [tools])
  exact ⟨h₁.1, h₁.2, h₂⟩

/-! ## Confirmation resolver (src/utils.ts, modelled from the spec) -/

/-- State of a tool invocation (spec §3: pending → declined/executed/error,
never regressing). -/
inductive InvState where
  | pending
  | executed (result : String)
  | declined
  | errored (msg : String)
deriving DecidableEq, Repr

/-- A tool invocation attached to an assistant message: id, tool name,
original arguments, state. -/
structure ToolInvocation where
  id : String
  toolName : String
  args : Args
  state : InvState
deriving DecidableEq, Repr

/-- Human decisions supplied by the approval channel:
invocation id → approved? (spec §6). -/
def Decisions := List (String × Bool)

/-- Look up the human decision for an invocation id. -/
def lookupDecision (d : Decisions) (id : String) : Option Bool :=
  (d.find? (fun p => p.1 = id)).map (·.2)

/-- Modelled from the spec: `processToolCalls` (`src/utils.ts`, imported by
`server.ts` but absent from the source tree), spec §4.2, acting on one
invocation.  Per invocation still pending: (1) an auto-classified tool
executes now, capturing result or caught error as the terminal result;
(2) a confirmation-required tool with no decision is left untouched;
(3) decision = denied synthesizes a terminal declined result, never
calling the execution function; (4) decision = approved invokes the
registered execution function with the original arguments, capturing
result or error as terminal.  Returns the updated invocation and the
trace of execution-function calls `(toolName, args)` made. -/
def resolveInvocation (reg : List ToolDefinition)
    (execs : List (String × (Args → Except String String)))
    (d : Decisions) (inv : ToolInvocation) :
    ToolInvocation × List (String × Args) :=
  match inv.state with
  | InvState.pending =>
    match findTool reg inv.toolName with
    | none => (inv, [])
    | some t =>
      match t.execute with
      | some f =>
        match f inv.args with
        | .ok r => ({ inv with state := InvState.executed r }, [(inv.toolName, inv.args)])
        | .error e => ({ inv with state := InvState.errored e }, [(inv.toolName, inv.args)])
      | none =>
        match lookupDecision d inv.id with
        | none => (inv, [])
        | some false => ({ inv with state := InvState.declined }, [])
        | some true =>
          match findExecution execs inv.toolName with
          | none => (inv, [])
          | some f =>
            match f inv.args with
            | .ok r => ({ inv with state := InvState.executed r }, [(inv.toolName, inv.args)])
            | .error e => ({ inv with state := InvState.errored e }, [(inv.toolName, inv.args)])
  | _ => (inv, [])

/-- Modelled from the spec: one resolver pass (`processToolCalls` over the
ordered invocations of the message history), resolving each invocation in
order and concatenating the traces of execution-function calls. -/
def resolverPass (reg : List ToolDefinition)
    (execs : List (String × (Args → Except String String)))
    (d : Decisions) : List ToolInvocation → List ToolInvocation × List (String × Args)
  | [] => ([], [])
  | inv :: rest =>
    let (inv', tr) := resolveInvocation reg execs d inv
    let (rest', trs) := resolverPass reg execs d rest
    (inv' :: rest', tr ++ trs)

/-- `n` repeated resolver passes over the same history, accumulating all
execution-function calls made across the passes. -/
def resolverPasses (reg : List ToolDefinition)
    (execs : List (String × (Args → Except String String)))
    (d : Decisions) (invs : List ToolInvocation) :
    Nat → List ToolInvocation × List (String × Args)
  | 0 => (invs, [])
  | n + 1 =>
    let (invs', tr) := resolverPass reg execs d invs
    let (invs'', trs) := resolverPasses reg execs d invs' n
    (invs'', tr ++ trs)

/-- C1: for a pending confirmation-required invocation (tool found in the
registry with no execute function, implementation registered in the
executions table): approved ⇒ the execution function is invoked exactly
once with the original arguments and a terminal executed result recorded;
denied ⇒ a terminal declined result with zero execution-function calls;
no decision ⇒ the invocation stays pending and unchanged across any
number of repeated resolver passes, with zero execution-function calls. -/
theorem resolver_confirmation_cases
    (reg : List ToolDefinition)
    (execs : List (String × (Args → Except String String)))
    (d : Decisions) (inv : ToolInvocation) (t : ToolDefinition)
    (f : Args → Except String String) (r : String)
    (hpend : inv.state = InvState.pending)
    (htool : findTool reg inv.toolName = some t)
    (hnoexec : t.execute = none)
    (himpl : findExecution execs inv.toolName = some f)
    (hok : f inv.args = .ok r) :
    (lookupDecision d inv.id = some true →
      resolveInvocation reg execs d inv =
        ({ inv with state := InvState.executed r }, [(inv.toolName, inv.args)])) ∧
    (lookupDecision d inv.id = some false →
      resolveInvocation reg execs d inv =
        ({ inv with state := InvState.declined }, [])) ∧
    (lookupDecision d inv.id = none →
      ∀ n, resolverPasses reg execs d [inv] n = ([inv], [])) := by
  refine ⟨?_, ?_, ?_⟩
  · intro hdec
    simp [resolveInvocation, hpend, htool, hnoexec, hdec, himpl, hok]
  · intro hdec
    simp [resolveInvocation, hpend, htool, hnoexec, hdec]
  · intro hdec n
    induction n with
    | zero => rfl
    | succ k ih =>
      have hstep : resolveInvocation reg execs d inv = (inv, []) := by
        simp [resolveInvocation, hpend, htool, hnoexec, hdec]
      simp [resolverPasses, resolverPass, hstep, ih]

/-- Witness for C1 at a concrete `getWeatherInformation` invocation:
approved executes once with the original city, denied declines without
executing, and three passes with no decision leave it pending. -/
theorem resolver_confirmation_cases_witness :
    (resolveInvocation tools executions [("call-1", true)]
        ⟨"call-1", "getWeatherInformation", "London", InvState.pending⟩ =
      (⟨"call-1", "getWeatherInformation", "London",
         InvState.executed "The weather in London is sunny"⟩,
       [("getWeatherInformation", "London")])) ∧
    (resolveInvocation tools executions [("call-1", false)]
        ⟨"call-1", "getWeatherInformation", "London", InvState.pending⟩ =
      (⟨"call-1", "getWeatherInformation", "London", InvState.declined⟩, [])) ∧
    (resolverPasses tools executions []
        [⟨"call-1", "getWeatherInformation", "London", InvState.pending⟩] 3 =
      ([⟨"call-1", "getWeatherInformation", "London", InvState.pending⟩], [])) := by
  have h₁ := resolver_confirmation_cases tools executions [("call-1", true)]
    ⟨"call-1", "getWeatherInformation", "London", InvState.pending⟩
    getWeatherInformation
    (fun city => .ok ("The weather in " ++ city ++ " is sunny"))
    "The weather in London is sunny"
    rfl (by simp [findTool, tools, List.find?, getWeatherInformation])
    rfl (by simp [findExecution, executions, List.find?]) rfl
  have h₂ := resolver_confirmation_cases tools executions [("call-1", false)]
    ⟨"call-1", "getWeatherInformation", "London", InvState.pending⟩
    getWeatherInformation
    (fun city => .ok ("The weather in " ++ city ++ " is sunny"))
    "The weather in London is sunny"
    rfl (by simp [findTool, tools, List.find?, getWeatherInformation])
    rfl (by simp [findExecution, executions, List.find?]) rfl
  have h₃ := resolver_confirmation_cases tools executions []
    ⟨"call-1", "getWeatherInformation", "London", InvState.pending⟩
    getWeatherInformation
    (fun city => .ok ("The weather in " ++ city ++ " is sunny"))
    "The weather in London is sunny"
    rfl (by simp [findTool, tools, List.find?, getWeatherInformation])
    rfl (by simp [findExecution, executions, List.find?]) rfl
  refine ⟨?_, ?_, ?_⟩
  · exact h₁.1 (by simp [lookupDecision, List.find?])
  · exact h₂.2.1 (by simp [lookupDecision, List.find?])
  · exact h₃.2.2 (by simp [lookupDecision, List.find?]) 3

/-! ## Scheduler tools (src/tools.ts: scheduleTask, cancelScheduledTask)

The `agents` library scheduler is an external collaborator; it is modelled
as explicit state per its interface in the spec (§4.3, §6): `schedule`
registers a spec and may throw, `cancelSchedule` throws `NotFound` for an
unknown id, and the scheduler normalizes every accepted input to one
absolute next-fire timestamp. -/

/-- The `unstable_scheduleSchema` "when" variant (spec §6 boundary):
absolute date, delay in seconds, cron expression, or no-schedule.
Times are epoch seconds. -/
inductive ScheduleSpec where
  | scheduled (date : Nat)
  | delayed (delayInSeconds : Nat)
  | cron (cron : String)
  | noSchedule
deriving DecidableEq, Repr

/-- The scalar value `scheduleTask` passes to `agent.schedule`: a Date, a
number of seconds, or a cron string. -/
inductive ScheduleInput where
  | date (d : Nat)
  | delay (s : Nat)
  | cronExpr (c : String)
deriving DecidableEq, Repr

/-- A registered schedule: id, normalization input, bound callback name,
payload. -/
structure ScheduleEntry where
  id : String
  input : ScheduleInput
  callback : String
  payload : String
deriving DecidableEq, Repr

/-- Scheduler state: active schedules, a fresh-id counter, the trace of
`schedule` calls made `(input, callbackName, payload)`, and fault
injection for a `schedule` call that throws (e.g. a malformed cron
expression rejected by the external cron evaluator). -/
structure SchedulerState where
  schedules : List ScheduleEntry
  nextId : Nat
  calls : List (ScheduleInput × String × String)
  failSchedule : Option String
deriving DecidableEq, Repr

/-- The external scheduler's `schedule(input, callbackName, payload)`:
records the call, then either throws (injected fault) or registers the
spec under a fresh id.  State is threaded through even when it throws. -/
def agentSchedule (input : ScheduleInput) (callbackName payload : String)
    (st : SchedulerState) : Except String String × SchedulerState :=
  let st₁ := { st with calls := st.calls ++ [(input, callbackName, payload)] }
  match st₁.failSchedule with
  | some e => (.error e, st₁)
  | none =>
    let id := toString st₁.nextId
    (.ok id,
     { st₁ with
        schedules := st₁.schedules ++ [⟨id, input, callbackName, payload⟩]
        nextId := st₁.nextId + 1 })

/-- The external scheduler's `cancelSchedule(id)`: removes the schedule
with that id, throwing `NotFound` when no active schedule has it. -/
def agentCancel (id : String) (st : SchedulerState) :
    Except String Unit × SchedulerState :=
  if st.schedules.any (fun e => e.id = id) then
    (.ok (), { st with schedules := st.schedules.filter (fun e => e.id ≠ id) })
  else
    (.error "NotFound", st)

/-- Normalization of an accepted schedule input to a single absolute
next-fire timestamp (spec §4.3): an absolute date is used verbatim, a
delay becomes now + delay, a cron expression's next fire time is computed
by the external cron evaluator `cronNext`. -/
def normalizeFireTime (cronNext : String → Nat → Nat) (now : Nat) :
    ScheduleInput → Nat
  | ScheduleInput.date d => d
  | ScheduleInput.delay s => now + s
  | ScheduleInput.cronExpr c => cronNext c now

/-- The `when.type` tag string, as interpolated into the tool's result. -/
def specTypeName : ScheduleSpec → String
  | ScheduleSpec.scheduled _ => "scheduled"
  | ScheduleSpec.delayed _ => "delayed"
  | ScheduleSpec.cron _ => "cron"
  | ScheduleSpec.noSchedule => "no-schedule"

/-- Rendering of the schedule input, as interpolated into the tool's
result. -/
def inputToString : ScheduleInput → String
  | ScheduleInput.date d => toString d
  | ScheduleInput.delay s => toString s
  | ScheduleInput.cronExpr c => c

/-- The `scheduleTask` tool's execute body: returns early for the
no-schedule variant; otherwise derives the scalar input from the variant
tag (date / delayInSeconds / cron) and calls
`agent.schedule(input, "executeTask", description)`, catching any error
into a human-readable result string.  All paths return a result
(`Except.ok`); the `throwError` arm of the source's ternary chain is
unreachable (the four variants are exhaustive).

`scheduleCallAndReport` is the try/catch around the `agent.schedule` call,
shared by the three accepted variants. -/
def scheduleCallAndReport (when : ScheduleSpec) (input : ScheduleInput)
    (description : String) (st : SchedulerState) :
    Except String (String × SchedulerState) :=
  match agentSchedule input "executeTask" description st with
  | (.ok _, st') =>
    .ok ("Task scheduled for type \"" ++ specTypeName when ++ "\" : "
          ++ inputToString input, st')
  | (.error e, st') =>
    .ok ("Error scheduling task: " ++ e, st')

def scheduleTaskRun (when : ScheduleSpec) (description : String)
    (st : SchedulerState) : Except String (String × SchedulerState) :=
  match when with
  | ScheduleSpec.noSchedule => .ok ("Not a valid schedule input", st)
  | ScheduleSpec.scheduled d =>
    scheduleCallAndReport when (ScheduleInput.date d) description st
  | ScheduleSpec.delayed s =>
    scheduleCallAndReport when (ScheduleInput.delay s) description st
  | ScheduleSpec.cron c =>
    scheduleCallAndReport when (ScheduleInput.cronExpr c) description st

/-- The `cancelScheduledTask` tool's execute body: calls
`agent.cancelSchedule(taskId)`, catching any error into a human-readable
result string. -/
def cancelScheduledTaskRun (taskId : String) (st : SchedulerState) :
    Except String (String × SchedulerState) :=
  match agentCancel taskId st with
  | (.ok _, st') =>
    .ok ("Task " ++ taskId ++ " has been successfully canceled.", st')
  | (.error e, st') =>
    .ok ("Error canceling task " ++ taskId ++ ": " ++ e, st')

/-- The scheduler-state component of `scheduleTaskRun`'s outcome (the tool
never throws, so the state is total in the inputs). -/
def scheduleTaskFinalState (when : ScheduleSpec) (description : String)
    (st : SchedulerState) : SchedulerState :=
  match scheduleTaskRun when description st with
  | .ok (_, st') => st'
  | .error _ => st

/-- C5: for every accepted ScheduleSpec, the value passed to the
scheduler's `schedule` call is determined by the variant tag — the date
for a scheduled spec, the delayInSeconds for a delayed spec, the cron
expression for a cron spec — always bound to the callback name
`"executeTask"` with the description as payload; and the scheduler
normalizes a delay to now + delay, so `delayInSeconds = s` issued at time
`T` fires at `T + s`. -/
theorem scheduleTask_call_by_variant (st : SchedulerState) (description : String) :
    (∀ d, (scheduleTaskFinalState (ScheduleSpec.scheduled d) description st).calls =
      st.calls ++ [(ScheduleInput.date d, "executeTask", description)]) ∧
    (∀ s, (scheduleTaskFinalState (ScheduleSpec.delayed s) description st).calls =
      st.calls ++ [(ScheduleInput.delay s, "executeTask", description)]) ∧
    (∀ c, (scheduleTaskFinalState (ScheduleSpec.cron c) description st).calls =
      st.calls ++ [(ScheduleInput.cronExpr c, "executeTask", description)]) ∧
    (∀ cronNext now s, normalizeFireTime cronNext now (ScheduleInput.delay s) = now + s) := by
  refine ⟨?_, ?_, ?_, ?_⟩ <;> intro x
  · cases h : st.failSchedule <;>
      simp [scheduleTaskFinalState, scheduleTaskRun, scheduleCallAndReport,
        agentSchedule, h]
  · cases h : st.failSchedule <;>
      simp [scheduleTaskFinalState, scheduleTaskRun, scheduleCallAndReport,
        agentSchedule, h]
  · cases h : st.failSchedule <;>
      simp [scheduleTaskFinalState, scheduleTaskRun, scheduleCallAndReport,
        agentSchedule, h]
  · intro now s
    rfl

/-- C6: invoking `scheduleTask` with the no-schedule variant returns a
human-readable result (never throws) saying the input is invalid, and
leaves the scheduler state untouched: no schedule is registered and the
scheduler is never invoked. -/
theorem scheduleTask_noSchedule_invalid (st : SchedulerState) (description : String) :
    scheduleTaskRun ScheduleSpec.noSchedule description st =
      .ok ("Not a valid schedule input", st) := by
  rfl

/-- C8: cancelling with an id no active schedule has (including a one-off
spec's id after it fired) returns a human-readable error result rather
than throwing, and leaves the schedules unchanged. -/
theorem cancelScheduledTask_unknown_id (st : SchedulerState) (taskId : String)
    (h : st.schedules.any (fun e => e.id = taskId) = false) :
    cancelScheduledTaskRun taskId st =
      .ok ("Error canceling task " ++ taskId ++ ": " ++ "NotFound", st) := by
  simp [cancelScheduledTaskRun, agentCancel, h]

/-- Witness for C8: cancelling `"task-1"` on an empty scheduler yields the
human-readable NotFound result and an unchanged state. -/
theorem cancelScheduledTask_unknown_id_witness :
    cancelScheduledTaskRun "task-1" ⟨[], 0, [], none⟩ =
      .ok ("Error canceling task task-1: NotFound", ⟨[], 0, [], none⟩) :=
  (cancelScheduledTask_unknown_id ⟨[], 0, [], none⟩ "task-1" (by decide)).trans
    (by rfl)

/-! ## Scheduled-task fire handler (src/server.ts: Chat.executeTask) -/

/-- A conversation message as saved by the chat agent. -/
structure ChatMessage where
  id : String
  role : String
  content : String
deriving DecidableEq, Repr

/-- Observable effects of the fire handler: a durable save of the message
list, or a model invocation (the handler makes none, but the type makes
the claim statable). -/
inductive ChatEffect where
  | saveMessages (msgs : List ChatMessage)
  | invokeModel
deriving DecidableEq, Repr

/-- `Chat.executeTask(description, task)`: durably saves the existing
messages plus one new user-role message
`"Running scheduled task: " ++ description`.  Returns the new message
list and the ordered effect trace. -/
def executeTask (genId : String) (description : String)
    (msgs : List ChatMessage) : List ChatMessage × List ChatEffect :=
  let m : ChatMessage :=
    ⟨genId, "user", "Running scheduled task: " ++ description⟩
  (msgs ++ [m], [ChatEffect.saveMessages (msgs ++ [m])])

/-- C7: when a scheduled spec fires, the handler durably appends exactly
one user-role conversation message carrying the task's description, and
its effect trace contains no model invocation at all — in particular none
before the durable append, so a crash mid-fire cannot lose the record of
the fire. -/
theorem executeTask_durable_append (genId description : String)
    (msgs : List ChatMessage) :
    (executeTask genId description msgs).1 =
      msgs ++ [⟨genId, "user", "Running scheduled task: " ++ description⟩] ∧
    (executeTask genId description msgs).2 =
      [ChatEffect.saveMessages
        (msgs ++ [⟨genId, "user", "Running scheduled task: " ++ description⟩])] ∧
    ChatEffect.invokeModel ∉ (executeTask genId description msgs).2 := by
  refine ⟨rfl, rfl, ?_⟩
  simp [executeTask]

/-! ## Durable ingestion workflow (src/server.ts: RAGWorkflow.run)

The Workflows step engine checkpoints each completed step; on resumption
a completed step's checkpointed result is reused instead of re-running
its side effect.  The D1 database, the OpenAI embedding client, and the
Vectorize index are external collaborators modelled as explicit state and
call counters. -/

/-- An embedding vector (its numeric content is an external collaborator's
output; only identity matters to the claims). -/
abbrev Vec := List Int

/-- A row of the `docs` table, as returned by
`INSERT INTO docs (text) VALUES (?) RETURNING *`. -/
structure DocumentRow where
  id : Nat
  text : String
deriving DecidableEq, Repr

/-- Observable state of the external collaborators: the `docs` table with
its autoincrement counter, the Vectorize index contents, and call
counters for the three side-effecting operations. -/
structure WorldState where
  docs : List DocumentRow
  nextRowId : Nat
  vectors : List (String × Vec)
  insertCalls : Nat
  embedCalls : Nat
  upsertCalls : Nat
deriving DecidableEq, Repr

/-- Environment of the workflow run: the embedding function computed by
the external model, and whether the persistence layer returns the
inserted row (`INSERT … RETURNING *` yielding a result set; `false`
models the failure mode where it returns no row). -/
structure WorkflowEnv where
  embedFn : String → Vec
  insertReturnsRow : Bool

/-- `env.DB.prepare("INSERT INTO docs (text) VALUES (?) RETURNING *")
.bind(text).run()`: counts the call; on success appends the new row and
returns it as the result set, otherwise returns an empty result set. -/
def dbInsert (env : WorkflowEnv) (text : String) (w : WorldState) :
    List DocumentRow × WorldState :=
  if env.insertReturnsRow then
    let row : DocumentRow := ⟨w.nextRowId, text⟩
    ([row],
     { w with
        docs := w.docs ++ [row]
        nextRowId := w.nextRowId + 1
        insertCalls := w.insertCalls + 1 })
  else
    ([], { w with insertCalls := w.insertCalls + 1 })

/-- Step checkpoints recorded by the workflow engine: the created record,
the generated embedding, and whether the vector upsert completed. -/
structure Checkpoints where
  record : Option DocumentRow
  embedding : Option Vec
  upserted : Bool
deriving DecidableEq, Repr

/-- The fresh checkpoint state of a new run. -/
def freshCk : Checkpoints := ⟨none, none, false⟩

/-- `step.do('create database record', …)`: if checkpointed, reuse the
stored row with no side effect; otherwise run the insert, throw
`"Failed to create document"` when the result set is empty
(`results[0]` falsy), and checkpoint the row.  The world is threaded
through even when the step throws. -/
def createRecordStep (env : WorkflowEnv) (text : String)
    (ck : Checkpoints) (w : WorldState) :
    Except String (DocumentRow × Checkpoints) × WorldState :=
  match ck.record with
  | some r => (.ok (r, ck), w)
  | none =>
    let (results, w') := dbInsert env text w
    match results.head? with
    | none => (.error "Failed to create document", w')
    | some r => (.ok (r, { ck with record := some r }), w')

/-- `step.do('generate embedding', …)`: if checkpointed, reuse the stored
embedding with no side effect; otherwise call the embedding model on the
run's input text and checkpoint `embedding.data[0].embedding`. -/
def generateEmbeddingStep (env : WorkflowEnv) (text : String)
    (ck : Checkpoints) (w : WorldState) :
    Vec × Checkpoints × WorldState :=
  match ck.embedding with
  | some e => (e, ck, w)
  | none =>
    let e := env.embedFn text
    (e, { ck with embedding := some e },
     { w with embedCalls := w.embedCalls + 1 })

/-- `step.do('insert vector', …)`: if checkpointed, skip; otherwise upsert
one vector keyed by the record's id rendered as a string, carrying the
checkpointed embedding.  (The source's `if (!record) return;` guard is
vacuous here: `record` is the non-null result of the first step.) -/
def insertVectorStep (record : DocumentRow) (embedding : Vec)
    (ck : Checkpoints) (w : WorldState) : Checkpoints × WorldState :=
  if ck.upserted then (ck, w)
  else
    ({ ck with upserted := true },
     { w with
        vectors := w.vectors ++ [(toString record.id, embedding)]
        upsertCalls := w.upsertCalls + 1 })

/-- `RAGWorkflow.run`: the three steps in order, each through the
checkpointing engine; a step that throws aborts the run with the later
steps not executed. -/
def runWorkflow (env : WorkflowEnv) (text : String)
    (ck : Checkpoints) (w : WorldState) :
    Except String Checkpoints × WorldState :=
  match createRecordStep env text ck w with
  | (.error e, w₁) => (.error e, w₁)
  | (.ok (record, ck₁), w₁) =>
    let (embedding, ck₂, w₂) := generateEmbeddingStep env text ck₁ w₁
    let (ck₃, w₃) := insertVectorStep record embedding ck₂ w₂
    (.ok ck₃, w₃)

/-- The empty initial world. -/
def w0 : WorldState := ⟨[], 0, [], 0, 0, 0⟩

/-- The healthy environment for a given embedding function: the
persistence layer returns the inserted row. -/
def okEnv (embedFn : String → Vec) : WorkflowEnv := ⟨embedFn, true⟩

/-- C3: a fresh run on any input text inserts exactly one document row,
computes exactly one embedding, and upserts exactly one vector keyed to
that row's id; and resuming after a crash that followed the completed
CreateRecord step reuses its checkpointed row — the insert side effect is
not repeated (still exactly one row, one insert call), with the run
resuming at GenerateEmbedding. -/
theorem workflow_run_once_and_resume (embedFn : String → Vec) (text : String) :
    (runWorkflow (okEnv embedFn) text freshCk w0 =
      (.ok ⟨some ⟨0, text⟩, some (embedFn text), true⟩,
       ⟨[⟨0, text⟩], 1, [("0", embedFn text)], 1, 1, 1⟩)) ∧
    (createRecordStep (okEnv embedFn) text freshCk w0 =
      (.ok (⟨0, text⟩, ⟨some ⟨0, text⟩, none, false⟩),
       ⟨[⟨0, text⟩], 1, [], 1, 0, 0⟩)) ∧
    (runWorkflow (okEnv embedFn) text ⟨some ⟨0, text⟩, none, false⟩
        ⟨[⟨0, text⟩], 1, [], 1, 0, 0⟩ =
      (.ok ⟨some ⟨0, text⟩, some (embedFn text), true⟩,
       ⟨[⟨0, text⟩], 1, [("0", embedFn text)], 1, 1, 1⟩)) := by
  refine ⟨?_, ?_, ?_⟩ <;>
    simp [runWorkflow, createRecordStep, generateEmbeddingStep,
      insertVectorStep, dbInsert, okEnv, freshCk, w0] <;> rfl

/-- C4: when the persistence layer returns an empty result set for
CreateRecord, the run aborts fatally with `"Failed to create document"`,
and neither the embedding step nor the upsert step executes (their call
counters stay zero, no vector is written, no row propagates). -/
theorem workflow_empty_insert_aborts (embedFn : String → Vec) (text : String) :
    runWorkflow ⟨embedFn, false⟩ text freshCk w0 =
      (.error "Failed to create document", ⟨[], 0, [], 1, 0, 0⟩) := by
  simp [runWorkflow, createRecordStep, dbInsert, freshCk, w0]

/-! ## Ingestion trigger endpoint (src/server.ts: app.post("/text")) -/

/-- A created workflow run: fresh id and its `{ text }` params. -/
structure WorkflowRunRecord where
  runId : Nat
  text : String
deriving DecidableEq, Repr

/-- `app.post("/text")`: reads `{ text }` from the JSON body (`none`
models an absent field); a missing or empty `text` is falsy and yields
`400 "Missing text"` with no run created; otherwise
`RAG_WORKFLOW.create({ params: { text } })` creates a run with a fresh id
and the endpoint replies `201 "Create note"`.  Returns
`((status, body), runs)`. -/
def postText (body : Option String) (runs : List WorkflowRunRecord) :
    (Nat × String) × List WorkflowRunRecord :=
  match body with
  | none => ((400, "Missing text"), runs)
  | some t =>
    if t = "" then ((400, "Missing text"), runs)
    else ((201, "Create note"), runs ++ [⟨runs.length, t⟩])

/-- C9: posting a body with non-empty `text` creates exactly one workflow
run carrying that text (with a fresh run id) and replies 201; a body with
`text` missing creates no run and replies 400 "Missing text". -/
theorem postText_creates_run_iff_text (runs : List WorkflowRunRecord) :
    (∀ t : String, t ≠ "" →
      postText (some t) runs = ((201, "Create note"), runs ++ [⟨runs.length, t⟩])) ∧
    postText none runs = ((400, "Missing text"), runs) := by
  constructor
  · intro t ht
    simp [postText, ht]
  · rfl

/-- Witness for C9: posting `{text := "hello"}` to an empty run table
creates run 0 with text `"hello"`; posting a body without `text` creates
nothing. -/
theorem postText_creates_run_iff_text_witness :
    postText (some "hello") [] = ((201, "Create note"), [⟨0, "hello"⟩]) ∧
    postText none [] = ((400, "Missing text"), []) :=
  ⟨(postText_creates_run_iff_text []).1 "hello" (by decide),
   (postText_creates_run_iff_text []).2⟩

/-! ## Knowledge-base retrieval tool (src/tools.ts: getRAGTool) -/

/-- A match returned by `VECTORIZE.query` (only its id is consumed). -/
structure VectorMatch where
  id : String
deriving DecidableEq, Repr

/-- External collaborators of `getRAGTool`: the embedding model, the
vector index (`query(vectors, { topK })`), the `docs` table lookup
(`SELECT * FROM docs WHERE id = ?`), and the response model
(`ai.responses.create`, taking the ordered role/content input list). -/
structure RAGEnv where
  embedFn : String → Vec
  queryFn : Vec → Nat → List VectorMatch
  dbRows : String → List DocumentRow
  respondFn : List (String × String) → String

/-- Observable calls made by `getRAGTool`. -/
inductive RAGEffect where
  | embedCall (input : String)
  | vectorQuery (topK : Nat)
  | dbSelect (id : String)
  | modelCall (input : List (String × String))
deriving DecidableEq, Repr

/-- Whether an effect is a document-table lookup. -/
def isDbSelect : RAGEffect → Bool
  | RAGEffect.dbSelect _ => true
  | _ => false

/-- The system prompt of `getRAGTool`. -/
def ragSystemPrompt : String :=
  "When answering the question or responding, use the context provided, if it is provided and relevant."

/-- `getRAGTool`'s execute body: embeds the query, queries the vector
store with `topK := 5`, takes `matches[0].id` when the match list is
non-empty, fetches the stored rows only for that id, builds the context
message from the fetched notes when any exist, and calls the response
model on developer/user messages — prefixed by the context message only
when notes exist.  Returns the model output and the ordered call trace. -/
def getRAGToolRun (env : RAGEnv) (query : String) : String × List RAGEffect :=
  let vectors := env.embedFn query
  let matchList := env.queryFn vectors 5
  let vecId : Option String :=
    match matchList with
    | [] => none
    | m :: _ => some m.id
  let notes : List String :=
    match vecId with
    | none => []
    | some i => (env.dbRows i).map (fun r => r.text)
  let contextMessage : String :=
    if notes.length ≠ 0 then
      "Context:\n" ++ String.intercalate "\n" (notes.map (fun note => "- " ++ note))
    else ""
  let input : List (String × String) :=
    (if notes.length ≠ 0 then [("developer", contextMessage)] else [])
      ++ [("developer", ragSystemPrompt), ("user", query)]
  (env.respondFn input,
   [RAGEffect.embedCall query, RAGEffect.vectorQuery 5]
     ++ (match vecId with
         | none => []
         | some i => [RAGEffect.dbSelect i])
     ++ [RAGEffect.modelCall input])

/-- C10: `getRAGTool` requests exactly the 5 nearest vectors; every
document-table lookup it makes is for the first match's id, and it makes
at most one such lookup; and when the match list is empty it makes no
lookup, omits the context message entirely, and still produces a model
answer from the query alone. -/
theorem ragTool_top5_first_match_only (env : RAGEnv) (query : String) :
    (RAGEffect.vectorQuery 5 ∈ (getRAGToolRun env query).2) ∧
    (∀ k, RAGEffect.vectorQuery k ∈ (getRAGToolRun env query).2 → k = 5) ∧
    (∀ i, RAGEffect.dbSelect i ∈ (getRAGToolRun env query).2 →
      ∃ m rest, env.queryFn (env.embedFn query) 5 = m :: rest ∧ i = m.id) ∧
    (((getRAGToolRun env query).2.filter isDbSelect).length ≤ 1) ∧
    (env.queryFn (env.embedFn query) 5 = [] →
      (((getRAGToolRun env query).2.filter isDbSelect) = []) ∧
      (getRAGToolRun env query).1 =
        env.respondFn [("developer", ragSystemPrompt), ("user", query)] ∧
      RAGEffect.modelCall [("developer", ragSystemPrompt), ("user", query)]
        ∈ (getRAGToolRun env query).2) := by
  cases h : env.queryFn (env.embedFn query) 5 with
  | nil =>
    refine ⟨?_, ?_, ?_, ?_, ?_⟩ <;>
      simp [getRAGToolRun, h, isDbSelect]
  | cons m rest =>
    refine ⟨?_, ?_, ?_, ?_, ?_⟩ <;>
      simp [getRAGToolRun, h, isDbSelect]

/-- A concrete environment whose vector index returns no matches. -/
def ragEnvNoMatches : RAGEnv :=
  { embedFn := fun _ => []
    queryFn := fun _ _ => []
    dbRows := fun _ => []
    respondFn := fun input => toString input.length }

/-- Witness for C10 in the empty-match environment: the top-5 query is
issued, no document lookup happens, and the model still answers from the
two context-free messages. -/
theorem ragTool_top5_first_match_only_witness :
    RAGEffect.vectorQuery 5 ∈ (getRAGToolRun ragEnvNoMatches "q").2 ∧
    ((getRAGToolRun ragEnvNoMatches "q").2.filter isDbSelect) = [] ∧
    (getRAGToolRun ragEnvNoMatches "q").1 = "2" := by
  have h := ragTool_top5_first_match_only ragEnvNoMatches "q"
  have hmatch : ragEnvNoMatches.queryFn (ragEnvNoMatches.embedFn "q") 5 = [] := rfl
  refine ⟨h.1, (h.2.2.2.2 hmatch).1, ?_⟩
  have hout := (h.2.2.2.2 hmatch).2.1
  simpa [ragEnvNoMatches] using hout
